import Mathlib

/-!
Shallow embedding of the `mcp-internet-archive` server (TypeScript sources in
`src/utils/sanitize.ts`, `src/utils/ia-runner.ts`, `src/tools/{search,metadata,
list,download}.ts`) and proofs about it.

Modelling conventions:
* JavaScript strings are modelled as `List Char`; `String.prototype.trim` is
  `jsTrim` over the ECMAScript WhiteSpace/LineTerminator set.
* JavaScript numbers are modelled as `ℚ` (the values reaching the validators
  are finite; `NaN`/`Infinity` are not representable and `Number.isInteger`
  rejects them just as `Rat.isInt` has no such values to accept).
* Fallible TypeScript code (functions that `throw`) returns `Except (List Char)`
  carrying the thrown error message.
* `child_process.execFile` outcomes are abstracted as an oracle function from
  the argument vector and timeout to `Except ExecError IaResult`; the error
  object carries the `killed` flag, `stderr`, `message` and its string
  rendering, the fields `ia-runner.ts` inspects.
* `JSON.parse` / `JSON.stringify(v, null, 2)` are modelled by an executable
  JSON parser (`jsonParse`) and pretty-printer (`jsonStringify`) written
  against the JSON grammar; handlers additionally take the parse function as
  an explicit parameter so that statements such as "does not parse any JSON"
  can be expressed as independence from that parameter.
-/

namespace IaMcp

/-- Shorthand: the `List Char` model of a string literal. -/
def str (s : String) : List Char := s.data

/-- `s₁` occurs as a contiguous substring of `s₂` (model of "the message
contains ..."). -/
def containsSub (needle haystack : List Char) : Prop :=
  ∃ s t, haystack = s ++ needle ++ t

/-- Boolean prefix test (model of `String.prototype.startsWith`). -/
def leadsWith : List Char → List Char → Bool
  | [], _ => true
  | _ :: _, [] => false
  | a :: as, b :: bs => a == b && leadsWith as bs

/-- Boolean substring test, executable companion of `containsSub`. -/
def containsSubB (needle : List Char) : List Char → Bool
  | [] => needle.isEmpty
  | c :: rest => leadsWith needle (c :: rest) || containsSubB needle rest

/-- ECMAScript whitespace (WhiteSpace ∪ LineTerminator), the set removed by
`String.prototype.trim`. -/
def jsWs (c : Char) : Bool :=
  c == ' ' || c == '\t' || c == '\n' || c == '\r' ||
  c.toNat == 0x0b || c.toNat == 0x0c || c.toNat == 0xa0 || c.toNat == 0x1680 ||
  (0x2000 ≤ c.toNat && c.toNat ≤ 0x200a) ||
  c.toNat == 0x2028 || c.toNat == 0x2029 || c.toNat == 0x202f ||
  c.toNat == 0x205f || c.toNat == 0x3000 || c.toNat == 0xfeff

/-- Model of `String.prototype.trim`. -/
def jsTrim (s : List Char) : List Char :=
  ((s.dropWhile jsWs).reverse.dropWhile jsWs).reverse

/-! ## Input validators (`src/utils/sanitize.ts`) -/

/-- Character class of the identifier regex `[a-zA-Z0-9._-]`. -/
def isIdentChar (c : Char) : Bool :=
  c.isAlpha || c.isDigit || c == '.' || c == '_' || c == '-'

/-- Model of the test `/^[a-zA-Z0-9._-]+$/.test s` (at least one character,
every character in class). -/
def matchesIdentClass (s : List Char) : Bool :=
  !s.isEmpty && s.all isIdentChar

/-- `validateIdentifier` from `sanitize.ts`. -/
def validateIdentifier (identifier : List Char) : Except (List Char) (List Char) :=
  let trimmed := jsTrim identifier
  if trimmed.isEmpty then
    .error (str "Identifier must not be empty")
  else if trimmed.length > 100 then
    .error (str "Identifier must be 100 characters or fewer")
  else if !matchesIdentClass trimmed then
    .error (str "Invalid identifier \"" ++ trimmed ++
      str "\". Only letters, digits, hyphens, underscores, and periods are allowed.")
  else
    .ok trimmed

/-- `validateQuery` from `sanitize.ts`. -/
def validateQuery (query : List Char) : Except (List Char) (List Char) :=
  let trimmed := jsTrim query
  if trimmed.isEmpty then
    .error (str "Search query must not be empty")
  else if trimmed.length > 2000 then
    .error (str "Search query must be 2000 characters or fewer")
  else
    .ok trimmed

/-- Character class of the glob regex (braces written by code point: 123 is
the opening and 125 the closing curly brace). -/
def isGlobChar (c : Char) : Bool :=
  c.isAlpha || c.isDigit || c == '.' || c == '*' || c == '?' ||
  c == '[' || c == ']' || c == '_' || c == '-' || c == '/' ||
  c.toNat == 123 || c.toNat == 125 || c == '|'

/-- Model of the glob regex test. -/
def matchesGlobClass (s : List Char) : Bool :=
  !s.isEmpty && s.all isGlobChar

/-- `validateGlob` from `sanitize.ts`. -/
def validateGlob (pattern : List Char) : Except (List Char) (List Char) :=
  let trimmed := jsTrim pattern
  if trimmed.isEmpty then
    .error (str "Glob pattern must not be empty")
  else if trimmed.length > 200 then
    .error (str "Glob pattern must be 200 characters or fewer")
  else if !matchesGlobClass trimmed then
    .error (str "Invalid glob pattern \"" ++ trimmed ++
      str "\". Contains disallowed characters.")
  else
    .ok trimmed

/-- `validateDestdir` from `sanitize.ts`. -/
def validateDestdir (dir : List Char) : Except (List Char) (List Char) :=
  let trimmed := jsTrim dir
  if trimmed.isEmpty then
    .error (str "Destination directory must not be empty")
  else if trimmed.length > 500 then
    .error (str "Destination directory path must be 500 characters or fewer")
  else
    .ok trimmed

/-- `validateFormat` from `sanitize.ts`. -/
def validateFormat (format : List Char) : Except (List Char) (List Char) :=
  let trimmed := jsTrim format
  if trimmed.isEmpty then
    .error (str "Format must not be empty")
  else if trimmed.length > 100 then
    .error (str "Format name must be 100 characters or fewer")
  else
    .ok trimmed

/-- `validateRows` from `sanitize.ts` (`rows` is a JavaScript number,
modelled as `ℚ`). -/
def validateRows (rows : ℚ) : Except (List Char) ℚ :=
  if !rows.isInt || rows < 1 || rows > 10000 then
    .error (str "rows must be an integer between 1 and 10000")
  else
    .ok rows

/-- `validatePage` from `sanitize.ts`. -/
def validatePage (page : ℚ) : Except (List Char) ℚ :=
  if !page.isInt || page < 1 then
    .error (str "page must be a positive integer")
  else
    .ok page

/-- Model of `/^[a-zA-Z_][a-zA-Z0-9_]*$/.test s`. -/
def matchesFieldClass : List Char → Bool
  | [] => false
  | c :: rest =>
    (c.isAlpha || c == '_') && rest.all (fun d => d.isAlpha || d.isDigit || d == '_')

/-- `validateFieldName` from `sanitize.ts`. -/
def validateFieldName (field : List Char) : Except (List Char) (List Char) :=
  let trimmed := jsTrim field
  if !matchesFieldClass trimmed then
    .error (str "Invalid field name \"" ++ trimmed ++
      str "\". Must be alphanumeric with underscores.")
  else
    .ok trimmed

/-! ## JSON model (`JSON.parse` / `JSON.stringify(·, null, 2)`)

An executable model of the JSON grammar, used by the search and metadata
handlers. Numbers keep their source lexeme (the handlers never compute with
parsed numbers). -/

/-- A JSON value. -/
inductive JVal where
  | null
  | jb (b : Bool)
  | jn (lexeme : List Char)
  | js (s : List Char)
  | ja (elems : List JVal)
  | jo (members : List (List Char × JVal))

/-- JSON insignificant whitespace. -/
def jWsChar (c : Char) : Bool :=
  c == ' ' || c == '\t' || c == '\n' || c == '\r'

/-- Skip JSON whitespace. -/
def jSkip (s : List Char) : List Char := s.dropWhile jWsChar

/-- Hexadecimal digit value (code points 48-57 are the digits, 97-102 and
65-70 the lower- and upper-case letter digits). -/
def hexDigit (c : Char) : Option Nat :=
  let n := c.toNat
  if 48 ≤ n && n ≤ 57 then some (n - 48)
  else if 97 ≤ n && n ≤ 102 then some (n - 87)
  else if 65 ≤ n && n ≤ 70 then some (n - 55)
  else none

/-- Parse the remainder of a JSON string (the opening quote already
consumed); returns the decoded characters and the rest of the input. -/
def parseStrRest : List Char → Option (List Char × List Char)
  | [] => none
  | '"' :: rest => some ([], rest)
  | '\\' :: 'u' :: a :: b :: c :: d :: rest => do
    let ha ← hexDigit a
    let hb ← hexDigit b
    let hc ← hexDigit c
    let hd ← hexDigit d
    let (s, r) ← parseStrRest rest
    pure (Char.ofNat (4096 * ha + 256 * hb + 16 * hc + hd) :: s, r)
  | '\\' :: e :: rest => do
    let ce ← (match e with
      | '"' => some '"'
      | '\\' => some '\\'
      | '/' => some '/'
      | 'b' => some '\x08'
      | 'f' => some '\x0c'
      | 'n' => some '\n'
      | 'r' => some '\r'
      | 't' => some '\t'
      | _ => none)
    let (s, r) ← parseStrRest rest
    pure (ce :: s, r)
  | c :: rest =>
    if c.toNat < 0x20 then none
    else do
      let (s, r) ← parseStrRest rest
      pure (c :: s, r)

/-- Parse a JSON number lexeme `-? (0 | [1-9][0-9]*) frac? exp?`. -/
def parseNumLex (s : List Char) : Option (List Char × List Char) := do
  let (sign, s1) :=
    match s with
    | '-' :: r => ((['-'] : List Char), r)
    | _ => (([] : List Char), s)
  let (intPart, s2) ← (match s1 with
    | '0' :: r => some ((['0'] : List Char), r)
    | c :: r =>
      if c.isDigit then
        some (c :: r.takeWhile Char.isDigit, r.dropWhile Char.isDigit)
      else none
    | [] => none)
  let (fracPart, s3) ← (match s2 with
    | '.' :: r =>
      let ds := r.takeWhile Char.isDigit
      if ds.isEmpty then none else some ('.' :: ds, r.dropWhile Char.isDigit)
    | _ => some (([] : List Char), s2))
  let (expPart, s4) ← (match s3 with
    | e :: r =>
      if e == 'e' || e == 'E' then
        let (es, r1) :=
          match r with
          | '+' :: r2 => ((['+'] : List Char), r2)
          | '-' :: r2 => ((['-'] : List Char), r2)
          | _ => (([] : List Char), r)
        let ds := r1.takeWhile Char.isDigit
        if ds.isEmpty then none
        else some (e :: es ++ ds, r1.dropWhile Char.isDigit)
      else some (([] : List Char), s3)
    | [] => some (([] : List Char), s3))
  pure (sign ++ intPart ++ fracPart ++ expPart, s4)

/-- Parser mode: a single value, array elements (`value (',' value)* ']'`),
or object members (`member (',' member)*` followed by the closing brace). -/
inductive PMode where
  | pval
  | pelems
  | pmems

/-- Parser intermediate result. -/
inductive PRes where
  | v (x : JVal)
  | vs (xs : List JVal)
  | ms (kvs : List (List Char × JVal))

/-- Fuel-indexed recursive-descent JSON parser. The fuel decreases on every
recursive call, so the definition is structurally recursive and reduces in
the kernel. Curly braces are matched by code point (123 / 125). -/
def parseP : Nat → PMode → List Char → Option (PRes × List Char)
  | 0, _, _ => none
  | fuel + 1, PMode.pval, s =>
    match s with
    | 'n' :: 'u' :: 'l' :: 'l' :: r => some (.v .null, r)
    | 't' :: 'r' :: 'u' :: 'e' :: r => some (.v (.jb true), r)
    | 'f' :: 'a' :: 'l' :: 's' :: 'e' :: r => some (.v (.jb false), r)
    | '"' :: r =>
      (parseStrRest r).map (fun p => (.v (.js p.1), p.2))
    | '[' :: r =>
      let r1 := jSkip r
      (match r1 with
       | ']' :: r2 => some (.v (.ja []), r2)
       | _ =>
         match parseP fuel PMode.pelems r1 with
         | some (.vs xs, r2) => some (.v (.ja xs), r2)
         | _ => none)
    | c :: r =>
      if c.toNat == 123 then
        let r1 := jSkip r
        (match r1 with
         | c2 :: r2 =>
           if c2.toNat == 125 then some (.v (.jo []), r2)
           else
             match parseP fuel PMode.pmems r1 with
             | some (.ms kvs, r2') => some (.v (.jo kvs), r2')
             | _ => none
         | [] => none)
      else
        (parseNumLex (c :: r)).map (fun p => (.v (.jn p.1), p.2))
    | [] => none
  | fuel + 1, PMode.pelems, s =>
    match parseP fuel PMode.pval s with
    | some (.v x, r1) =>
      (match jSkip r1 with
       | ',' :: r2 =>
         (match parseP fuel PMode.pelems (jSkip r2) with
          | some (.vs xs, r3) => some (.vs (x :: xs), r3)
          | _ => none)
       | ']' :: r2 => some (.vs [x], r2)
       | _ => none)
    | _ => none
  | fuel + 1, PMode.pmems, s =>
    match s with
    | '"' :: r =>
      (match parseStrRest r with
       | some (key, r1) =>
         (match jSkip r1 with
          | ':' :: r2 =>
            (match parseP fuel PMode.pval (jSkip r2) with
             | some (.v x, r3) =>
               (match jSkip r3 with
                | ',' :: r4 =>
                  (match parseP fuel PMode.pmems (jSkip r4) with
                   | some (.ms kvs, r5) => some (.ms ((key, x) :: kvs), r5)
                   | _ => none)
                | c :: r4 =>
                  if c.toNat == 125 then some (.ms [(key, x)], r4) else none
                | [] => none)
             | _ => none)
          | _ => none)
       | none => none)
    | _ => none

/-- Model of `JSON.parse`: parse a complete document, requiring only
whitespace after the value. The error message stands in for the
engine-specific `SyntaxError` message. -/
def jsonParse (s : List Char) : Except (List Char) JVal :=
  match parseP (2 * s.length + 4) PMode.pval (jSkip s) with
  | some (.v x, r) =>
    if (jSkip r).isEmpty then .ok x
    else .error (str "Unexpected non-whitespace character after JSON data")
  | _ => .error (str "Unexpected token in JSON")

/-- Escape one character for JSON string output. -/
def escChar (c : Char) : List Char :=
  if c == '"' then str "\\\""
  else if c == '\\' then str "\\\\"
  else if c == '\n' then str "\\n"
  else if c == '\r' then str "\\r"
  else if c == '\t' then str "\\t"
  else if c.toNat == 8 then str "\\b"
  else if c.toNat == 12 then str "\\f"
  else if c.toNat < 0x20 then
    str "\\u00" ++ [(Nat.digitChar (c.toNat / 16)), (Nat.digitChar (c.toNat % 16))]
  else [c]

/-- Quote and escape a string for JSON output. -/
def quoteStr (s : List Char) : List Char :=
  ['"'] ++ s.flatMap escChar ++ ['"']

/-- `n` spaces. -/
def spaces (n : Nat) : List Char := List.replicate n ' '

mutual

/-- Model of `JSON.stringify(v, null, 2)` at indentation depth `ind`. -/
def sVal (ind : Nat) : JVal → List Char
  | JVal.null => str "null"
  | JVal.jb true => str "true"
  | JVal.jb false => str "false"
  | JVal.jn lex => lex
  | JVal.js s => quoteStr s
  | JVal.ja [] => str "[]"
  | JVal.ja (x :: xs) =>
    str "[\n" ++ spaces (ind + 2) ++ sElems ind x xs ++ str "\n" ++ spaces ind ++ str "]"
  | JVal.jo [] => str (String.mk [Char.ofNat 123, Char.ofNat 125])
  | JVal.jo ((k, v) :: kvs) =>
    [Char.ofNat 123, '\n'] ++ spaces (ind + 2) ++ sMems ind k v kvs ++
      str "\n" ++ spaces ind ++ [Char.ofNat 125]
  termination_by v => sizeOf v

/-- Array items, comma/newline separated, each at depth `ind + 2`. -/
def sElems (ind : Nat) (x : JVal) : List JVal → List Char
  | [] => sVal (ind + 2) x
  | y :: ys => sVal (ind + 2) x ++ str ",\n" ++ spaces (ind + 2) ++ sElems ind y ys
  termination_by xs => sizeOf x + sizeOf xs + 1

/-- Object members, comma/newline separated, each at depth `ind + 2`. -/
def sMems (ind : Nat) (k : List Char) (v : JVal) : List (List Char × JVal) → List Char
  | [] => quoteStr k ++ str ": " ++ sVal (ind + 2) v
  | (k2, v2) :: ls =>
    quoteStr k ++ str ": " ++ sVal (ind + 2) v ++ str ",\n" ++
      spaces (ind + 2) ++ sMems ind k2 v2 ls
  termination_by kvs => sizeOf v + sizeOf kvs + 1

end

/-- Model of `JSON.stringify(v, null, 2)`. -/
def jsonStringify (v : JVal) : List Char := sVal 0 v

/-! ## Process invoker (`src/utils/ia-runner.ts`) -/

/-- `DEFAULT_TIMEOUT_MS` from `ia-runner.ts`. -/
def DEFAULT_TIMEOUT_MS : Nat := 120000

/-- `DOWNLOAD_TIMEOUT_MS` from `ia-runner.ts`. -/
def DOWNLOAD_TIMEOUT_MS : Nat := 600000

/-- The pair returned by stdout/stderr capture (`IaResult` in the source). -/
structure IaResult where
  stdout : List Char
  stderr : List Char
deriving DecidableEq

/-- The fields of the error object thrown by `execFile` that `ia-runner.ts`
inspects: the `killed` flag (set when the timeout fired and the child was
killed), captured `stderr`, the `message`, and the `String(error)` rendering
used as a final fallback. -/
structure ExecError where
  killed : Bool
  stderr : List Char
  message : List Char
  strRepr : List Char
deriving DecidableEq

/-- Oracle for one `execFileAsync` invocation of the resolved executable:
from the argument vector and timeout to the subprocess outcome. -/
abbrev ExecFn := List (List Char) → Nat → Except ExecError IaResult

/-- `Nat` rendered in decimal (model of JavaScript number-to-string for the
non-negative integers that occur here). -/
def natStr (n : Nat) : List Char := (Nat.repr n).data

/-- A validated JavaScript number rendered into a template string. All values
interpolated by the handlers are integers; integers render as their numerator. -/
def jsNumStr (q : ℚ) : List Char :=
  if q.den = 1 then (Int.repr q.num).data else (toString q).data

/-- `runIa` from `ia-runner.ts`, with executable resolution abstracted into
the `exec` oracle (the resolved command only selects which process runs; the
message shaping below is what the handlers observe). On a killed (timed-out)
child it throws the timeout message with the timeout in seconds
(`timeoutMs / 1000`; both timeouts in this repository are multiples of 1000,
so `Nat` division coincides with the JavaScript division) and the attempted
command; otherwise it throws `ia command failed:` with `stderr`, falling back
to the error's `message`, falling back to `String(error)`. -/
def runIa (exec : ExecFn) (args : List (List Char)) (timeoutMs : Nat) :
    Except (List Char) IaResult :=
  match exec args timeoutMs with
  | .ok r => .ok r
  | .error e =>
    if e.killed then
      .error (str "ia command timed out after " ++ natStr (timeoutMs / 1000) ++
        str " seconds. Command: ia " ++ List.intercalate (str " ") args)
    else
      .error (str "ia command failed: " ++
        (if !e.stderr.isEmpty then e.stderr
         else if !e.message.isEmpty then e.message
         else e.strRepr))

/-- The fixed installation-guidance message thrown by `checkIaAvailable`. -/
def installMsg : List Char :=
  str "The Internet Archive CLI (ia) is not installed or not on PATH.\nInstall it with: pip install internetarchive\nThen configure with: ia configure\nVerify with: ia --version"

/-- `checkIaAvailable` from `ia-runner.ts`: the `--version` probe outcome is
abstracted as `probe`; any failure (resolution or probe) is replaced by the
fixed installation guidance. -/
def checkIaAvailable (probe : Except ExecError IaResult) :
    Except (List Char) (List Char) :=
  match probe with
  | .ok r => .ok (jsTrim r.stdout)
  | .error _ => .error installMsg

/-! ## Executable resolver (`resolveIaExecutable` in `ia-runner.ts`) -/

/-- The memoized `{command, useShell}` pair. -/
structure ResolvedIa where
  command : List Char
  useShell : Bool
deriving DecidableEq

/-- The platform facts `resolveIaExecutable` consults: the platform flag, the
outcome of the `ia.exe --version` probe, the three environment variables, and
the filesystem (`existsSync`, `readdirSync` — `none` models a thrown error —
and `readFileSync`). -/
structure SysEnv where
  isWindows : Bool
  iaExeProbeOk : Bool
  envPYENV_ROOT : Option (List Char)
  envPYENV : Option (List Char)
  envUSERPROFILE : Option (List Char)
  existsSync : List Char → Bool
  readdirSync : List Char → Option (List (List Char))
  readFileSync : List Char → List Char

/-- JavaScript `a || b` for `string | undefined` values (empty string is
falsy). -/
def envOr (v : Option (List Char)) (d : List Char) : List Char :=
  match v with
  | some s => if s.isEmpty then d else s
  | none => d

/-- `process.env.X || ""`. -/
def envOrEmpty (v : Option (List Char)) : List Char :=
  match v with
  | some s => s
  | none => []

/-- Model of `path.join` on Windows: backslash-joined, empty segments
ignored. -/
def winJoin (parts : List (List Char)) : List Char :=
  List.intercalate (str "\\") (parts.filter (fun p => !p.isEmpty))

/-- `readFileSync(f).trim().split(/\r?\n/)[0]`: first line of the trimmed
content, with a carriage return before the newline also consumed. -/
def firstLine (s : List Char) : List Char :=
  let t := s.takeWhile (fun c => c != '\n')
  if t.getLast? = some '\r' then t.dropLast else t

/-- Strategy 2 of the resolver: read the pyenv version pin and look for
`ia.exe` under the matching versions directory (prefix match). -/
def pyenvPinned (sys : SysEnv) (pyenvRoot versionsDir : List Char) :
    Option ResolvedIa :=
  let versionFile := winJoin [pyenvRoot, str "version"]
  if sys.existsSync versionFile then
    let versionPrefix := firstLine (jsTrim (sys.readFileSync versionFile))
    match sys.readdirSync versionsDir with
    | none => none
    | some dirs =>
      match dirs.find? (fun d => leadsWith versionPrefix d) with
      | some m =>
        let candidate := winJoin [versionsDir, m, str "Scripts", str "ia.exe"]
        if sys.existsSync candidate then some ⟨candidate, false⟩ else none
      | none => none
  else none

/-- Strategy 3 of the resolver: scan every pyenv version directory for
`Scripts\ia.exe`, adopting the first hit. -/
def pyenvScan (sys : SysEnv) (versionsDir : List Char) : Option ResolvedIa :=
  match sys.readdirSync versionsDir with
  | none => none
  | some dirs =>
    (dirs.find? (fun d =>
        sys.existsSync (winJoin [versionsDir, d, str "Scripts", str "ia.exe"]))).map
      (fun d => ⟨winJoin [versionsDir, d, str "Scripts", str "ia.exe"], false⟩)

/-- Strategy 4, one base directory: a direct `ia.exe` when the base already
ends in `Scripts`, else the first subdirectory holding `Scripts\ia.exe`. -/
def probeBase (sys : SysEnv) (base : List Char) : Option ResolvedIa :=
  if sys.existsSync base then
    let direct : Option ResolvedIa :=
      if (str "Scripts").isSuffixOf base then
        let candidate := winJoin [base, str "ia.exe"]
        if sys.existsSync candidate then some ⟨candidate, false⟩ else none
      else none
    match direct with
    | some r => some r
    | none =>
      match sys.readdirSync base with
      | none => none
      | some subs =>
        (subs.find? (fun sub =>
            sys.existsSync (winJoin [base, sub, str "Scripts", str "ia.exe"]))).map
          (fun sub => ⟨winJoin [base, sub, str "Scripts", str "ia.exe"], false⟩)
  else none

/-- One full (uncached) resolution: the strategy chain of
`resolveIaExecutable`, terminating in the shell-mode last resort. -/
def resolveFresh (sys : SysEnv) : ResolvedIa :=
  if !sys.isWindows then ⟨str "ia", false⟩
  else if sys.iaExeProbeOk then ⟨str "ia.exe", false⟩
  else
    let pyenvRoot := envOr sys.envPYENV_ROOT (envOr sys.envPYENV
      (winJoin [envOrEmpty sys.envUSERPROFILE, str ".pyenv", str "pyenv-win"]))
    let versionsDir := winJoin [pyenvRoot, str "versions"]
    let pyenvHit : Option ResolvedIa :=
      if sys.existsSync versionsDir then
        match pyenvPinned sys pyenvRoot versionsDir with
        | some r => some r
        | none => pyenvScan sys versionsDir
      else none
    match pyenvHit with
    | some r => r
    | none =>
      let userProfile := envOrEmpty sys.envUSERPROFILE
      let bases : List (List Char) :=
        [winJoin [userProfile, str "AppData", str "Local", str "Programs", str "Python"],
         winJoin [userProfile, str "AppData", str "Roaming", str "Python"],
         str "C:\\Python313\\Scripts",
         str "C:\\Python312\\Scripts",
         str "C:\\Python311\\Scripts"]
      match bases.findSome? (probeBase sys) with
      | some r => r
      | none => ⟨str "ia", true⟩

/-- `resolveIaExecutable`: returns the cached pair when the module-level
cache is set, otherwise resolves once and writes the cache. The pair is the
returned value; the second component is the cache cell after the call. -/
def resolveIaExecutable (sys : SysEnv) (cache : Option ResolvedIa) :
    ResolvedIa × Option ResolvedIa :=
  match cache with
  | some r => (r, some r)
  | none =>
    let r := resolveFresh sys
    (r, some r)

/-- `runIa` with the module-level cache threaded explicitly: resolve (using
the cache), run the resolved executable, and return the outcome together with
the cache cell after the call (the `catch` block never clears it). -/
def runIaSt (sys : SysEnv) (execBehavior : ResolvedIa → ExecFn)
    (cache : Option ResolvedIa) (args : List (List Char)) (timeoutMs : Nat) :
    Except (List Char) IaResult × Option ResolvedIa :=
  let p := resolveIaExecutable sys cache
  (runIa (execBehavior p.1) args timeoutMs, p.2)

/-! ## Operation handlers (`src/tools/*.ts`)

Each handler takes the `--version` probe outcome (`probe`), the subprocess
oracle (`exec`), and — where the source calls `JSON.parse` — the parse
function itself, so that (in)dependence on parsing is expressible. The
returned `CallToolResult` models the single text content item the source
always produces, plus the `isError` flag (absent in the source means
`false`). -/

/-- The result shape returned to the transport. -/
structure CallToolResult where
  text : List Char
  isError : Bool
deriving DecidableEq

/-- A JSON parse function: the model of `JSON.parse`, taken as a parameter
by the handlers that parse. -/
abbrev ParseFn := List Char → Except (List Char) JVal

/-- `SearchArgs` from `search.ts` (optional numbers stay JavaScript numbers). -/
structure SearchArgs where
  query : List Char
  fields : Option (List (List Char))
  rows : Option ℚ
  page : Option ℚ

/-- `const rows = args.rows ? validateRows(args.rows) : 50;` — an absent or
falsy (zero) `rows` silently selects the default without consulting the
validator. -/
def rowsOf (rows : Option ℚ) : Except (List Char) ℚ :=
  match rows with
  | none => .ok 50
  | some r => if r = 0 then .ok 50 else validateRows r

/-- `const page = args.page ? validatePage(args.page) : 1;`. -/
def pageOf (page : Option ℚ) : Except (List Char) ℚ :=
  match page with
  | none => .ok 1
  | some p => if p = 0 then .ok 1 else validatePage p

/-- The `--field` flags appended per validated field name (the loop in
`handleSearch`; an absent or empty list appends nothing). -/
def fieldFlags (fields : Option (List (List Char))) :
    Except (List Char) (List (List Char)) :=
  match fields with
  | none => .ok []
  | some fs => do
    let vs ← fs.mapM validateFieldName
    pure (vs.flatMap (fun v => [str "--field", v]))

/-- The argument vector `handleSearch` passes to `runIa`. -/
def searchIaArgs (query : List Char) (page rows : ℚ)
    (fieldArgs : List (List Char)) : List (List Char) :=
  [str "search", query,
   str "--parameters", str "page=" ++ jsNumStr page ++ str "&rows=" ++ jsNumStr rows]
  ++ fieldArgs

/-- `stdout.trim().split("\n").filter(Boolean)`. -/
def searchLines (stdout : List Char) : List (List Char) :=
  ((jsTrim stdout).splitOn '\n').filter (fun l => !l.isEmpty)

/-- The per-line parse loop of `handleSearch`: parse each line, silently
skipping lines that fail to parse, keeping line order. -/
def searchResults (parse : ParseFn) (stdout : List Char) : List JVal :=
  (searchLines stdout).filterMap (fun l => (parse l).toOption)

/-- The `output` object `handleSearch` serializes
(`{total_results, page, rows, results}`). -/
def searchOutputJson (total : Nat) (page rows : ℚ) (results : List JVal) : JVal :=
  JVal.jo [(str "total_results", JVal.jn (natStr total)),
           (str "page", JVal.jn (jsNumStr page)),
           (str "rows", JVal.jn (jsNumStr rows)),
           (str "results", JVal.ja results)]

/-- The inner `try` block of `handleSearch` (everything the outer
`Search failed:` catch wraps). -/
def handleSearchBody (parse : ParseFn) (exec : ExecFn) (args : SearchArgs) :
    Except (List Char) CallToolResult := do
  let query ← validateQuery args.query
  let rows ← rowsOf args.rows
  let page ← pageOf args.page
  let fieldArgs ← fieldFlags args.fields
  let r ← runIa exec (searchIaArgs query page rows fieldArgs) DEFAULT_TIMEOUT_MS
  let results := searchResults parse r.stdout
  pure ⟨jsonStringify (searchOutputJson results.length page rows results), false⟩

/-- `handleSearch` from `search.ts`. -/
def handleSearch (parse : ParseFn) (probe : Except ExecError IaResult)
    (exec : ExecFn) (args : SearchArgs) : CallToolResult :=
  match checkIaAvailable probe with
  | .error e => ⟨e, true⟩
  | .ok _ =>
    match handleSearchBody parse exec args with
    | .ok r => r
    | .error m => ⟨str "Search failed: " ++ m, true⟩

/-- The NotFound-flavored message of `handleMetadata`. -/
def noMetadataMsg (identifier : List Char) : List Char :=
  str "No metadata found for \"" ++ identifier ++ str "\". The item may not exist."

/-- The inner `try` block of `handleMetadata`. -/
def handleMetadataBody (parse : ParseFn) (exec : ExecFn)
    (identifierArg : List Char) : Except (List Char) CallToolResult := do
  let identifier ← validateIdentifier identifierArg
  let r ← runIa exec [str "metadata", identifier] DEFAULT_TIMEOUT_MS
  let trimmed := jsTrim r.stdout
  if trimmed.isEmpty then
    pure ⟨noMetadataMsg identifier, true⟩
  else do
    let parsed ← parse trimmed
    pure ⟨jsonStringify parsed, false⟩

/-- `handleMetadata` from `metadata.ts`. -/
def handleMetadata (parse : ParseFn) (probe : Except ExecError IaResult)
    (exec : ExecFn) (identifierArg : List Char) : CallToolResult :=
  match checkIaAvailable probe with
  | .error e => ⟨e, true⟩
  | .ok _ =>
    match handleMetadataBody parse exec identifierArg with
    | .ok r => r
    | .error m => ⟨str "Metadata retrieval failed: " ++ m, true⟩

/-- The NotFound-flavored message of `handleList`. -/
def noFilesMsg (identifier : List Char) : List Char :=
  str "No files found for \"" ++ identifier ++ str "\". The item may not exist."

/-- The inner `try` block of `handleList`. -/
def handleListBody (exec : ExecFn) (identifierArg : List Char) :
    Except (List Char) CallToolResult := do
  let identifier ← validateIdentifier identifierArg
  let r ← runIa exec [str "list", identifier, str "--all", str "--verbose"]
      DEFAULT_TIMEOUT_MS
  let trimmed := jsTrim r.stdout
  if trimmed.isEmpty then
    pure ⟨noFilesMsg identifier, true⟩
  else
    pure ⟨str "Files in \"" ++ identifier ++ str "\":\n\n" ++ trimmed, false⟩

/-- `handleList` from `list.ts`. -/
def handleList (probe : Except ExecError IaResult) (exec : ExecFn)
    (identifierArg : List Char) : CallToolResult :=
  match checkIaAvailable probe with
  | .error e => ⟨e, true⟩
  | .ok _ =>
    match handleListBody exec identifierArg with
    | .ok r => r
    | .error m => ⟨str "List failed: " ++ m, true⟩

/-- `DownloadArgs` from `download.ts` (`dry_run` absent means falsy, so it is
modelled directly as `Bool`). -/
structure DownloadArgs where
  identifier : List Char
  glob : Option (List Char)
  destdir : Option (List Char)
  format : Option (List Char)
  dry_run : Bool

/-- One optional flagged parameter of `handleDownload`: `if (args.x)
iaArgs.push("--x", validateX(args.x))` — absent or empty-string values
(falsy) silently contribute nothing. -/
def optFlag (validate : List Char → Except (List Char) (List Char))
    (flag : List Char) (v : Option (List Char)) :
    Except (List Char) (List (List Char)) :=
  match v with
  | none => .ok []
  | some s =>
    if s.isEmpty then .ok []
    else do
      let t ← validate s
      pure [flag, t]

/-- The argument-vector construction of `handleDownload` (validated
identifier plus the optional flags), returning the validated identifier
alongside the vector. -/
def downloadIaArgs (args : DownloadArgs) :
    Except (List Char) (List Char × List (List Char)) := do
  let identifier ← validateIdentifier args.identifier
  let g ← optFlag validateGlob (str "--glob") args.glob
  let d ← optFlag validateDestdir (str "--destdir") args.destdir
  let f ← optFlag validateFormat (str "--format") args.format
  pure (identifier,
    [str "download", identifier] ++ g ++ d ++ f ++
      (if args.dry_run then [str "--dry-run"] else []))

/-- `[stdout, stderr].filter(Boolean).join("\n").trim()`. -/
def downloadOutput (stdout stderr : List Char) : List Char :=
  jsTrim (List.intercalate (str "\n")
    (([stdout, stderr]).filter (fun x => !x.isEmpty)))

/-- The inner `try` block of `handleDownload`. -/
def handleDownloadBody (exec : ExecFn) (args : DownloadArgs) :
    Except (List Char) CallToolResult := do
  let (identifier, iaArgs) ← downloadIaArgs args
  let r ← runIa exec iaArgs DOWNLOAD_TIMEOUT_MS
  let output := downloadOutput r.stdout r.stderr
  if output.isEmpty then
    pure ⟨str "Download completed for \"" ++ identifier ++
      str "\" (no output — files may already exist).", false⟩
  else
    pure ⟨(if args.dry_run then
        str "Dry run for \"" ++ identifier ++ str "\":\n"
      else
        str "Download completed for \"" ++ identifier ++ str "\":\n") ++ output,
      false⟩

/-- `handleDownload` from `download.ts`. -/
def handleDownload (probe : Except ExecError IaResult) (exec : ExecFn)
    (args : DownloadArgs) : CallToolResult :=
  match checkIaAvailable probe with
  | .error e => ⟨e, true⟩
  | .ok _ =>
    match handleDownloadBody exec args with
    | .ok r => r
    | .error m => ⟨str "Download failed: " ++ m, true⟩

/-! ## Concrete fixtures used by witnesses and counterexamples -/

/-- A successful `--version` probe outcome. -/
def probeOkW : Except ExecError IaResult := Except.ok ⟨str "ia 3.0.0", []⟩

/-- An `execFile` error object with `killed` unset and no captured output. -/
def execErrW : ExecError := ⟨false, [], [], []⟩

/-- A failed `--version` probe outcome. -/
def probeFailW : Except ExecError IaResult := Except.error execErrW

/-- A subprocess oracle whose every invocation fails to spawn. -/
def execFailW : ExecFn := fun _ _ => Except.error execErrW

/-- An `execFile` error object for a killed (timed-out) child. -/
def timeoutErrW : ExecError := ⟨true, [], [], []⟩

/-- A subprocess oracle whose every invocation times out. -/
def execTimeoutW : ExecFn := fun _ _ => Except.error timeoutErrW

/-- Search stdout of two newline-delimited records: the first line is
malformed JSON, the second is well-formed. -/
def searchStdoutW : List Char := str "\x7b\"bad\":\n\x7b\"identifier\": \"apollo11\"\x7d"

/-- A subprocess oracle producing `searchStdoutW`. -/
def execSearchW : ExecFn := fun _ _ => Except.ok ⟨searchStdoutW, []⟩

/-- The search call `search("title:\"Apollo 11\"", rows=2, page=1)`. -/
def searchArgsW : SearchArgs := ⟨str "title:\"Apollo 11\"", none, some 2, some 1⟩

/-- A subprocess oracle producing empty output. -/
def execEmptyW : ExecFn := fun _ _ => Except.ok ⟨[], []⟩

/-- A subprocess oracle producing whitespace-only stdout. -/
def execSpaceW : ExecFn := fun _ _ => Except.ok ⟨str " ", []⟩

/-- A subprocess oracle producing dry-run status text on stdout. -/
def execDryRunW : ExecFn := fun _ _ => Except.ok ⟨str "will fetch: file1.txt", []⟩

/-- The download call `download("item1", dry_run=true)`. -/
def dlArgsW : DownloadArgs := ⟨str "item1", none, none, none, true⟩

/-! ## Helper lemmas -/

theorem leadsWith_iff (n h : List Char) :
    leadsWith n h = true ↔ ∃ t, h = n ++ t := by
  induction n generalizing h with
  | nil => simp [leadsWith]
  | cons a as ih =>
    cases h with
    | nil => simp [leadsWith]
    | cons b bs =>
      simp only [leadsWith, Bool.and_eq_true, beq_iff_eq, ih bs]
      constructor
      · rintro ⟨rfl, t, rfl⟩; exact ⟨t, rfl⟩
      · rintro ⟨t, heq⟩
        injection heq with h1 h2
        exact ⟨h1.symm, t, h2⟩

theorem containsSub_iff (n h : List Char) :
    containsSub n h ↔ containsSubB n h = true := by
  induction h with
  | nil =>
    simp only [containsSub, containsSubB, List.isEmpty_iff]
    constructor
    · rintro ⟨s, t, heq⟩
      exact (List.append_eq_nil.mp (List.append_eq_nil.mp heq.symm).1).2
    · rintro rfl; exact ⟨[], [], rfl⟩
  | cons c rest ih =>
    simp only [containsSubB, Bool.or_eq_true, leadsWith_iff, ← ih]
    constructor
    · rintro ⟨s, t, heq⟩
      cases s with
      | nil => exact Or.inl ⟨t, by simpa using heq⟩
      | cons x xs =>
        injection heq with h1 h2
        exact Or.inr ⟨xs, t, h2⟩
    · rintro (⟨t, heq⟩ | ⟨s, t, heq⟩)
      · exact ⟨[], t, by simpa using heq⟩
      · exact ⟨c :: s, t, by rw [heq]; rfl⟩

theorem intercalate_cons_head (sep a : List Char) (rest : List (List Char)) :
    ∃ t, List.intercalate sep (a :: rest) = a ++ t := by
  cases rest with
  | nil => exact ⟨[], by simp [List.intercalate]⟩
  | cons b bs =>
    exact ⟨sep ++ List.intercalate sep (b :: bs),
      by simp [List.intercalate, List.intersperse, List.append_assoc]⟩

/-! ## Claim theorems -/

/-- C3: identifier validation fails whenever the trimmed value contains a
character outside `{ASCII letters, digits, '.', '_', '-'}`, is empty, or is
longer than 100 characters; it succeeds and returns the trimmed value
unchanged whenever the trimmed value is non-empty, at most 100 characters,
and entirely within the class. -/
theorem validateIdentifier_spec (s : List Char) :
    ((jsTrim s).all isIdentChar = false →
      ∃ e, validateIdentifier s = Except.error e)
  ∧ (jsTrim s = [] → ∃ e, validateIdentifier s = Except.error e)
  ∧ ((jsTrim s).length > 100 → ∃ e, validateIdentifier s = Except.error e)
  ∧ (jsTrim s ≠ [] → (jsTrim s).length ≤ 100 → (jsTrim s).all isIdentChar = true →
      validateIdentifier s = Except.ok (jsTrim s)) := by
  refine ⟨?_, ?_, ?_, ?_⟩
  · intro hall
    by_cases h1 : (jsTrim s).isEmpty
    · simp [validateIdentifier, h1]
    · by_cases h2 : (jsTrim s).length > 100
      · simp [validateIdentifier, h1, h2]
      · simp [validateIdentifier, h1, h2, matchesIdentClass, hall]
  · intro h
    simp [validateIdentifier, h]
  · intro h2
    by_cases h1 : (jsTrim s).isEmpty
    · simp [validateIdentifier, h1]
    · simp [validateIdentifier, h1, h2]
  · intro h1 h2 h3
    have h1' : (jsTrim s).isEmpty = false := by
      simpa [List.isEmpty_iff] using h1
    have h2' : ¬ (jsTrim s).length > 100 := by omega
    simp [validateIdentifier, h1', h2', matchesIdentClass, h3]

/-- C3 witness: `" Apollo_11.v2 "` trims to a non-empty in-class value of
length at most 100 and validates to exactly the trimmed value. -/
theorem validateIdentifier_spec_witness :
    (jsTrim (str " Apollo_11.v2 ") ≠ []
      ∧ (jsTrim (str " Apollo_11.v2 ")).length ≤ 100
      ∧ (jsTrim (str " Apollo_11.v2 ")).all isIdentChar = true)
  ∧ validateIdentifier (str " Apollo_11.v2 ") =
      Except.ok (jsTrim (str " Apollo_11.v2 ")) :=
  ⟨⟨by decide, by decide, by decide⟩,
    (validateIdentifier_spec (str " Apollo_11.v2 ")).2.2.2
      (by decide) (by decide) (by decide)⟩

/-- C8: row-count validation succeeds exactly for integer values in
`[1, 10000]`, returning the value unchanged; in particular `rows=1` and
`rows=10000` succeed while `rows=0`, `rows=10001` and `rows=3.5` fail. -/
theorem validateRows_spec :
    (∀ q : ℚ, validateRows q = Except.ok q ↔
      (q.isInt = true ∧ 1 ≤ q ∧ q ≤ 10000))
  ∧ (∀ q : ℚ, ¬(q.isInt = true ∧ 1 ≤ q ∧ q ≤ 10000) →
      validateRows q = Except.error (str "rows must be an integer between 1 and 10000"))
  ∧ validateRows 1 = Except.ok 1
  ∧ validateRows 10000 = Except.ok 10000
  ∧ validateRows 0 = Except.error (str "rows must be an integer between 1 and 10000")
  ∧ validateRows 10001 = Except.error (str "rows must be an integer between 1 and 10000")
  ∧ validateRows (3.5 : ℚ) = Except.error (str "rows must be an integer between 1 and 10000") := by
  have hchar : ∀ q : ℚ,
      ((!q.isInt || decide (q < 1) || decide (q > 10000)) = true) ↔
      ¬(q.isInt = true ∧ 1 ≤ q ∧ q ≤ 10000) := by
    intro q
    simp only [Bool.or_eq_true, Bool.not_eq_true', decide_eq_true_eq]
    constructor
    · rintro ((h | h) | h) ⟨hi, hlo, hhi⟩
      · simp [hi] at h
      · exact absurd hlo (not_le.mpr h)
      · exact absurd hhi (not_le.mpr h)
    · intro hne
      by_cases hi : q.isInt = true
      · by_cases hlo : 1 ≤ q
        · by_cases hhi : q ≤ 10000
          · exact absurd ⟨hi, hlo, hhi⟩ hne
          · exact Or.inr (not_le.mp hhi)
        · exact Or.inl (Or.inr (not_le.mp hlo))
      · exact Or.inl (Or.inl (by simpa using hi))
  have h35 : (3.5 : ℚ) = mkRat 7 2 := by norm_num [Rat.mkRat_eq_div]
  refine ⟨?_, ?_, rfl, rfl, rfl, rfl, by rw [h35]; rfl⟩
  · intro q
    constructor
    · intro hok
      by_contra hne
      have hcond := (hchar q).mpr hne
      simp [validateRows, hcond] at hok
    · intro hcond
      have hfalse : (!q.isInt || decide (q < 1) || decide (q > 10000)) = false := by
        rcases Bool.eq_false_or_eq_true
            (!q.isInt || decide (q < 1) || decide (q > 10000)) with h | h
        · exact absurd hcond ((hchar q).mp h)
        · exact h
      simp [validateRows, hfalse]
  · intro q hne
    simp [validateRows, (hchar q).mpr hne]

/-- C8 witness: `rows=0` is rejected — zero is an integer but lies below the
interval, so validation fails with the descriptive error. -/
theorem validateRows_spec_witness :
    ¬((0 : ℚ).isInt = true ∧ 1 ≤ (0 : ℚ) ∧ (0 : ℚ) ≤ 10000)
  ∧ validateRows 0 =
      Except.error (str "rows must be an integer between 1 and 10000") :=
  ⟨by decide, validateRows_spec.2.1 0 (by decide)⟩

/-- C9: at the handler level, falsy optional parameters are treated as
absent and never reach their validators — `rows=0` and `page=0` silently use
the defaults 50 and 1 (although the validators reject 0), and empty-string
`glob`/`destdir`/`format` silently omit the flag (although the validators
reject the empty string). -/
theorem falsy_optionals_use_defaults :
    (∀ (parse : ParseFn) (probe : Except ExecError IaResult) (exec : ExecFn)
        (q : List Char) (f : Option (List (List Char))),
      handleSearch parse probe exec ⟨q, f, some 0, some 0⟩ =
        handleSearch parse probe exec ⟨q, f, none, none⟩)
  ∧ rowsOf (some 0) = Except.ok 50
  ∧ pageOf (some 0) = Except.ok 1
  ∧ validateRows 0 = Except.error (str "rows must be an integer between 1 and 10000")
  ∧ validatePage 0 = Except.error (str "page must be a positive integer")
  ∧ (∀ (probe : Except ExecError IaResult) (exec : ExecFn) (id : List Char) (d : Bool),
      handleDownload probe exec ⟨id, some [], some [], some [], d⟩ =
        handleDownload probe exec ⟨id, none, none, none, d⟩)
  ∧ validateGlob [] = Except.error (str "Glob pattern must not be empty")
  ∧ validateDestdir [] = Except.error (str "Destination directory must not be empty")
  ∧ validateFormat [] = Except.error (str "Format must not be empty") := by
  refine ⟨?_, rfl, rfl, rfl, rfl, ?_, rfl, rfl, rfl⟩
  · intro parse probe exec q f
    rfl
  · intro probe exec id d
    rfl

/-- C10: the identifier `"--help"` and the glob `"-x"` pass validation
(hyphen is in both character classes and no leading-character restriction
exists), and the download handler places them into the argument vector
directly after the subcommand, where a flag parser could interpret them as
flags. -/
theorem hyphen_leading_values_enter_argv :
    validateIdentifier (str "--help") = Except.ok (str "--help")
  ∧ validateGlob (str "-x") = Except.ok (str "-x")
  ∧ downloadIaArgs ⟨str "--help", some (str "-x"), none, none, false⟩ =
      Except.ok (str "--help",
        [str "download", str "--help", str "--glob", str "-x"])
  ∧ (str "--help").head? = some '-'
  ∧ (str "-x").head? = some '-' := by
  refine ⟨rfl, rfl, rfl, rfl, rfl⟩

/-- C6: executable resolution is memoized — a second resolution (under any
platform facts, including ones where every probe would fail) returns the
identical `{command, useShell}` pair and leaves the cache unchanged; once the
cache holds a pair, every invocation reuses it without consulting the
platform, and a failing invocation does not clear it. -/
theorem resolveIaExecutable_memoized (sys sys2 : SysEnv)
    (cache : Option ResolvedIa) (execBehavior : ResolvedIa → ExecFn)
    (args : List (List Char)) (t : Nat) (r : ResolvedIa) :
    (resolveIaExecutable sys2 (resolveIaExecutable sys cache).2).1 =
      (resolveIaExecutable sys cache).1
  ∧ (resolveIaExecutable sys2 (resolveIaExecutable sys cache).2).2 =
      (resolveIaExecutable sys cache).2
  ∧ resolveIaExecutable sys2 (some r) = (r, some r)
  ∧ (runIaSt sys2 execBehavior (some r) args t).2 = some r := by
  refine ⟨?_, ?_, rfl, rfl⟩ <;> cases cache <;> rfl

/-- C5: when the child process is killed by the timeout, `runIa` fails with a
message containing the timeout in seconds (`timeoutMs / 1000`; the hypothesis
`timeoutMs % 1000 = 0` confines the statement to the timeouts this repository
configures, where integer and JavaScript division agree) and the attempted
command including the subcommand name, the first element of the argument
vector. -/
theorem runIa_timeout_message (exec : ExecFn) (a : List Char)
    (rest : List (List Char)) (timeoutMs : Nat) (e : ExecError)
    (_hsec : timeoutMs % 1000 = 0)
    (hexec : exec (a :: rest) timeoutMs = Except.error e)
    (hk : e.killed = true) :
    ∃ m, runIa exec (a :: rest) timeoutMs = Except.error m
      ∧ containsSub (natStr (timeoutMs / 1000)) m
      ∧ containsSub (str "Command: ia " ++ List.intercalate (str " ") (a :: rest)) m
      ∧ containsSub a m := by
  obtain ⟨tj, htj⟩ := intercalate_cons_head (str " ") a rest
  refine ⟨str "ia command timed out after " ++ natStr (timeoutMs / 1000) ++
    str " seconds. Command: ia " ++ List.intercalate (str " ") (a :: rest),
    ?_, ?_, ?_, ?_⟩
  · simp [runIa, hexec, hk]
  · exact ⟨str "ia command timed out after ",
      str " seconds. Command: ia " ++ List.intercalate (str " ") (a :: rest),
      by simp [List.append_assoc]⟩
  · refine ⟨str "ia command timed out after " ++ natStr (timeoutMs / 1000) ++
      str " seconds. ", [], ?_⟩
    have hsplit : str " seconds. Command: ia " =
        str " seconds. " ++ str "Command: ia " := by decide
    rw [hsplit]
    simp [List.append_assoc]
  · refine ⟨str "ia command timed out after " ++ natStr (timeoutMs / 1000) ++
      str " seconds. Command: ia ", tj, ?_⟩
    rw [htj]
    simp [List.append_assoc]

/-- C5 witness: a timed-out `ia search` under the default 120000 ms timeout. -/
theorem runIa_timeout_message_witness :
    (120000 % 1000 = 0)
  ∧ execTimeoutW [str "search", str "cats"] 120000 = Except.error timeoutErrW
  ∧ timeoutErrW.killed = true
  ∧ ∃ m, runIa execTimeoutW [str "search", str "cats"] 120000 = Except.error m
      ∧ containsSub (natStr (120000 / 1000)) m
      ∧ containsSub (str "Command: ia " ++
          List.intercalate (str " ") [str "search", str "cats"]) m
      ∧ containsSub (str "search") m :=
  ⟨by decide, rfl, rfl,
    runIa_timeout_message execTimeoutW (str "search") [str "cats"] 120000
      timeoutErrW (by decide) rfl rfl⟩

/-- C1: when the subprocess succeeds, the search handler splits stdout into
lines, parses each line, silently skips every line that fails to parse, and
returns a non-error result serializing `{total_results, page, rows, results}`
where `results` is exactly the successfully parsed records in line order and
`total_results` is their count. -/
theorem search_skips_malformed_lines
    (parse : ParseFn) (probe : Except ExecError IaResult) (exec : ExecFn)
    (args : SearchArgs) (pr : IaResult) (q : List Char) (r p : ℚ)
    (fa : List (List Char)) (so se : List Char)
    (hprobe : probe = Except.ok pr)
    (hq : validateQuery args.query = Except.ok q)
    (hr : rowsOf args.rows = Except.ok r)
    (hp : pageOf args.page = Except.ok p)
    (hf : fieldFlags args.fields = Except.ok fa)
    (hexec : exec (searchIaArgs q p r fa) DEFAULT_TIMEOUT_MS = Except.ok ⟨so, se⟩) :
    handleSearch parse probe exec args =
      ⟨jsonStringify (searchOutputJson
          ((searchLines so).filterMap (fun l => (parse l).toOption)).length p r
          ((searchLines so).filterMap (fun l => (parse l).toOption))), false⟩ := by
  subst hprobe
  simp [handleSearch, checkIaAvailable, handleSearchBody, hq, hr, hp, hf,
    runIa, hexec, searchResults, bind, Except.bind, Functor.map, Except.map,
    pure, Except.pure]

/-- C1 witness: `search("title:\"Apollo 11\"", rows=2, page=1)` over stdout
of one malformed and one well-formed line yields `total_results = 1` and only
the well-formed record. -/
theorem search_skips_malformed_lines_witness :
    validateQuery (str "title:\"Apollo 11\"") = Except.ok (str "title:\"Apollo 11\"")
  ∧ rowsOf (some 2) = Except.ok 2
  ∧ pageOf (some 1) = Except.ok 1
  ∧ fieldFlags none = Except.ok []
  ∧ execSearchW (searchIaArgs (str "title:\"Apollo 11\"") 1 2 []) DEFAULT_TIMEOUT_MS =
      Except.ok ⟨searchStdoutW, []⟩
  ∧ jsonParse (str "\x7b\"bad\":") = Except.error (str "Unexpected token in JSON")
  ∧ jsonParse (str "\x7b\"identifier\": \"apollo11\"\x7d") =
      Except.ok (JVal.jo [(str "identifier", JVal.js (str "apollo11"))])
  ∧ handleSearch jsonParse probeOkW execSearchW searchArgsW =
      ⟨jsonStringify (searchOutputJson 1 1 2
          [JVal.jo [(str "identifier", JVal.js (str "apollo11"))]]), false⟩ := by
  refine ⟨rfl, rfl, rfl, rfl, rfl, rfl, rfl, ?_⟩
  have h := search_skips_malformed_lines jsonParse probeOkW execSearchW
    searchArgsW ⟨str "ia 3.0.0", []⟩ (str "title:\"Apollo 11\"") 2 1 []
    searchStdoutW [] rfl rfl rfl rfl rfl rfl
  rw [h]
  rfl

/-- C4: when the subprocess succeeds with empty (or whitespace-only) stdout,
the metadata handler returns a NotFound-flavored error mentioning the
validated identifier without parsing any JSON (the result is independent of
the parse function); when the trimmed stdout is non-empty it is handed to
`JSON.parse` as a single document and, on success, returned pretty-printed
(a parse failure propagates to the generic `Metadata retrieval failed:`
catch). -/
theorem metadata_empty_output_not_found
    (parse parse2 : ParseFn) (probe : Except ExecError IaResult)
    (exec : ExecFn) (idArg : List Char) (pr : IaResult) (id so se : List Char)
    (v : JVal) (em : List Char)
    (hprobe : probe = Except.ok pr)
    (hid : validateIdentifier idArg = Except.ok id)
    (hexec : exec [str "metadata", id] DEFAULT_TIMEOUT_MS = Except.ok ⟨so, se⟩) :
    (jsTrim so = [] →
        handleMetadata parse probe exec idArg = ⟨noMetadataMsg id, true⟩
      ∧ containsSub id (noMetadataMsg id)
      ∧ handleMetadata parse probe exec idArg = handleMetadata parse2 probe exec idArg)
  ∧ (jsTrim so ≠ [] → parse (jsTrim so) = Except.ok v →
      handleMetadata parse probe exec idArg = ⟨jsonStringify v, false⟩)
  ∧ (jsTrim so ≠ [] → parse (jsTrim so) = Except.error em →
      handleMetadata parse probe exec idArg =
        ⟨str "Metadata retrieval failed: " ++ em, true⟩) := by
  subst hprobe
  refine ⟨?_, ?_, ?_⟩
  · intro hempty
    have hres : ∀ ps : ParseFn,
        handleMetadata ps (Except.ok pr) exec idArg = ⟨noMetadataMsg id, true⟩ := by
      intro ps
      simp [handleMetadata, checkIaAvailable, handleMetadataBody, hid, runIa,
        hexec, hempty, bind, Except.bind, pure, Except.pure]
    exact ⟨hres parse,
      ⟨str "No metadata found for \"", str "\". The item may not exist.",
        by simp [noMetadataMsg, List.append_assoc]⟩,
      (hres parse).trans (hres parse2).symm⟩
  · intro hne hparse
    have hemp : (jsTrim so).isEmpty = false := by
      simpa [List.isEmpty_iff] using hne
    simp [handleMetadata, checkIaAvailable, handleMetadataBody, hid, runIa,
      hexec, hemp, hparse, bind, Except.bind, pure, Except.pure]
  · intro hne hparse
    have hemp : (jsTrim so).isEmpty = false := by
      simpa [List.isEmpty_iff] using hne
    simp [handleMetadata, checkIaAvailable, handleMetadataBody, hid, runIa,
      hexec, hemp, hparse, bind, Except.bind, pure, Except.pure]

/-- C4 witness: `metadata("nonexistent-item-xyz")` with empty subprocess
output yields the NotFound-flavored error mentioning the identifier. -/
theorem metadata_empty_output_not_found_witness :
    validateIdentifier (str "nonexistent-item-xyz") =
      Except.ok (str "nonexistent-item-xyz")
  ∧ execEmptyW [str "metadata", str "nonexistent-item-xyz"] DEFAULT_TIMEOUT_MS =
      Except.ok ⟨[], []⟩
  ∧ jsTrim ([] : List Char) = []
  ∧ handleMetadata jsonParse probeOkW execEmptyW (str "nonexistent-item-xyz") =
      ⟨noMetadataMsg (str "nonexistent-item-xyz"), true⟩
  ∧ containsSub (str "nonexistent-item-xyz")
      (noMetadataMsg (str "nonexistent-item-xyz")) := by
  have h := (metadata_empty_output_not_found jsonParse jsonParse probeOkW
    execEmptyW (str "nonexistent-item-xyz") ⟨str "ia 3.0.0", []⟩
    (str "nonexistent-item-xyz") [] [] JVal.null [] rfl rfl rfl).1 rfl
  exact ⟨rfl, rfl, rfl, h.1, h.2.1⟩

/-- C7 (amended): on subprocess success the download handler reports on the
*trimmed* newline-join of stdout and stderr — when that trimmed join is empty
it returns a generic completed-no-output success; when it is non-empty it
returns it prefixed by a dry-run-specific or completion-specific message. -/
theorem download_output_reporting
    (probe : Except ExecError IaResult) (exec : ExecFn) (args : DownloadArgs)
    (pr : IaResult) (id : List Char) (iaA : List (List Char)) (so se : List Char)
    (hprobe : probe = Except.ok pr)
    (hargs : downloadIaArgs args = Except.ok (id, iaA))
    (hexec : exec iaA DOWNLOAD_TIMEOUT_MS = Except.ok ⟨so, se⟩) :
    (downloadOutput so se = [] →
      handleDownload probe exec args =
        ⟨str "Download completed for \"" ++ id ++
          str "\" (no output — files may already exist).", false⟩)
  ∧ (downloadOutput so se ≠ [] →
      handleDownload probe exec args =
        ⟨(if args.dry_run then str "Dry run for \"" ++ id ++ str "\":\n"
          else str "Download completed for \"" ++ id ++ str "\":\n") ++
          downloadOutput so se, false⟩
      ∧ containsSub (downloadOutput so se) (handleDownload probe exec args).text) := by
  subst hprobe
  constructor
  · intro hempty
    simp [handleDownload, checkIaAvailable, handleDownloadBody, hargs, runIa,
      hexec, hempty, bind, Except.bind, pure, Except.pure]
  · intro hne
    have hemp : (downloadOutput so se).isEmpty = false := by
      simpa [List.isEmpty_iff] using hne
    have hres : handleDownload (Except.ok pr) exec args =
        ⟨(if args.dry_run then str "Dry run for \"" ++ id ++ str "\":\n"
          else str "Download completed for \"" ++ id ++ str "\":\n") ++
          downloadOutput so se, false⟩ := by
      simp [handleDownload, checkIaAvailable, handleDownloadBody, hargs, runIa,
        hexec, hemp, bind, Except.bind, pure, Except.pure]
    refine ⟨hres, ?_⟩
    rw [hres]
    exact ⟨(if args.dry_run then str "Dry run for \"" ++ id ++ str "\":\n"
      else str "Download completed for \"" ++ id ++ str "\":\n"), [],
      by simp⟩

/-- C7 witness: `download("item1", dry_run=true)` with non-empty stdout
status text yields the dry-run-prefixed success text containing it. -/
theorem download_output_reporting_witness :
    downloadIaArgs dlArgsW =
      Except.ok (str "item1", [str "download", str "item1", str "--dry-run"])
  ∧ execDryRunW [str "download", str "item1", str "--dry-run"] DOWNLOAD_TIMEOUT_MS =
      Except.ok ⟨str "will fetch: file1.txt", []⟩
  ∧ downloadOutput (str "will fetch: file1.txt") [] ≠ []
  ∧ handleDownload probeOkW execDryRunW dlArgsW =
      ⟨str "Dry run for \"item1\":\n" ++
        downloadOutput (str "will fetch: file1.txt") [], false⟩
  ∧ containsSub (downloadOutput (str "will fetch: file1.txt") [])
      (handleDownload probeOkW execDryRunW dlArgsW).text := by
  have h := (download_output_reporting probeOkW execDryRunW dlArgsW
    ⟨str "ia 3.0.0", []⟩ (str "item1")
    [str "download", str "item1", str "--dry-run"]
    (str "will fetch: file1.txt") [] rfl rfl rfl).2 (by decide)
  exact ⟨rfl, rfl, by decide, h.1, h.2⟩

/-- C7 counterexample: with whitespace-only stdout the concatenation of
stdout and stderr is non-empty, yet the handler returns the generic
completed-no-output message with no dry-run prefix, contradicting the claim
that every non-empty concatenation is returned with a prefix. -/
theorem download_whitespace_output_counterexample :
    str " " ++ ([] : List Char) ≠ ([] : List Char)
  ∧ handleDownload probeOkW execSpaceW ⟨str "item1", none, none, none, true⟩ =
      ⟨str "Download completed for \"item1\" (no output — files may already exist).",
        false⟩
  ∧ ¬ containsSub (str "Dry run")
      (handleDownload probeOkW execSpaceW ⟨str "item1", none, none, none, true⟩).text := by
  refine ⟨by decide, rfl, ?_⟩
  intro hc
  exact absurd ((containsSub_iff _ _).mp hc) (by decide)

/-- C2 counterexample: an Unavailable failure of the search handler returns
the fixed installation-guidance text, which contains neither "search" nor
"Search" — the error text of this failure kind does not include the
operation name. -/
theorem unavailable_error_lacks_operation_name :
    handleSearch jsonParse probeFailW execFailW ⟨str "cats", none, none, none⟩ =
      ⟨installMsg, true⟩
  ∧ ¬ containsSub (str "search") installMsg
  ∧ ¬ containsSub (str "Search") installMsg := by
  refine ⟨rfl, ?_, ?_⟩ <;>
    exact fun hc => absurd ((containsSub_iff _ _).mp hc) (by decide)

/-- C2 (amended): every failure kind yields an error result (`isError`) with
a human-readable cause rather than a thrown exception; ValidationError,
Timeout and ExecutionError failures carry an operation-naming prefix
(`Search failed:`, `Metadata retrieval failed:`, `List failed:`,
`Download failed:`), while Unavailable failures return the fixed installation
guidance without the operation name, and the NotFound-flavored empty-output
messages of metadata and list mention the identifier (list's without naming
the operation). -/
theorem handlers_return_error_results
    (parse : ParseFn) (probe : Except ExecError IaResult) (exec : ExecFn)
    (sa : SearchArgs) (ma la : List Char) (da : DownloadArgs)
    (e : ExecError) (pr : IaResult) (m id so se : List Char) :
    (probe = Except.error e →
        handleSearch parse probe exec sa = ⟨installMsg, true⟩
      ∧ handleMetadata parse probe exec ma = ⟨installMsg, true⟩
      ∧ handleList probe exec la = ⟨installMsg, true⟩
      ∧ handleDownload probe exec da = ⟨installMsg, true⟩)
  ∧ (probe = Except.ok pr → handleSearchBody parse exec sa = Except.error m →
        handleSearch parse probe exec sa = ⟨str "Search failed: " ++ m, true⟩
      ∧ containsSub (str "Search") (handleSearch parse probe exec sa).text
      ∧ containsSub m (handleSearch parse probe exec sa).text)
  ∧ (probe = Except.ok pr → handleMetadataBody parse exec ma = Except.error m →
        handleMetadata parse probe exec ma =
          ⟨str "Metadata retrieval failed: " ++ m, true⟩
      ∧ containsSub (str "Metadata") (handleMetadata parse probe exec ma).text
      ∧ containsSub m (handleMetadata parse probe exec ma).text)
  ∧ (probe = Except.ok pr → handleListBody exec la = Except.error m →
        handleList probe exec la = ⟨str "List failed: " ++ m, true⟩
      ∧ containsSub (str "List") (handleList probe exec la).text
      ∧ containsSub m (handleList probe exec la).text)
  ∧ (probe = Except.ok pr → handleDownloadBody exec da = Except.error m →
        handleDownload probe exec da = ⟨str "Download failed: " ++ m, true⟩
      ∧ containsSub (str "Download") (handleDownload probe exec da).text
      ∧ containsSub m (handleDownload probe exec da).text)
  ∧ (probe = Except.ok pr → validateIdentifier la = Except.ok id →
      exec [str "list", id, str "--all", str "--verbose"] DEFAULT_TIMEOUT_MS =
        Except.ok ⟨so, se⟩ →
      jsTrim so = [] →
        handleList probe exec la = ⟨noFilesMsg id, true⟩
      ∧ containsSub id (noFilesMsg id)) := by
  refine ⟨?_, ?_, ?_, ?_, ?_, ?_⟩
  · rintro rfl
    exact ⟨rfl, rfl, rfl, rfl⟩
  · rintro rfl hbody
    have hres : handleSearch parse (Except.ok pr) exec sa =
        ⟨str "Search failed: " ++ m, true⟩ := by
      simp [handleSearch, checkIaAvailable, hbody]
    refine ⟨hres, ?_, ?_⟩ <;> rw [hres]
    · exact ⟨[], str " failed: " ++ m,
        by rw [show str "Search failed: " = str "Search" ++ str " failed: " by decide]
           simp [List.append_assoc]⟩
    · exact ⟨str "Search failed: ", [], by simp⟩
  · rintro rfl hbody
    have hres : handleMetadata parse (Except.ok pr) exec ma =
        ⟨str "Metadata retrieval failed: " ++ m, true⟩ := by
      simp [handleMetadata, checkIaAvailable, hbody]
    refine ⟨hres, ?_, ?_⟩ <;> rw [hres]
    · exact ⟨[], str " retrieval failed: " ++ m,
        by rw [show str "Metadata retrieval failed: " =
              str "Metadata" ++ str " retrieval failed: " by decide]
           simp [List.append_assoc]⟩
    · exact ⟨str "Metadata retrieval failed: ", [], by simp⟩
  · rintro rfl hbody
    have hres : handleList (Except.ok pr) exec la =
        ⟨str "List failed: " ++ m, true⟩ := by
      simp [handleList, checkIaAvailable, hbody]
    refine ⟨hres, ?_, ?_⟩ <;> rw [hres]
    · exact ⟨[], str " failed: " ++ m,
        by rw [show str "List failed: " = str "List" ++ str " failed: " by decide]
           simp [List.append_assoc]⟩
    · exact ⟨str "List failed: ", [], by simp⟩
  · rintro rfl hbody
    have hres : handleDownload (Except.ok pr) exec da =
        ⟨str "Download failed: " ++ m, true⟩ := by
      simp [handleDownload, checkIaAvailable, hbody]
    refine ⟨hres, ?_, ?_⟩ <;> rw [hres]
    · exact ⟨[], str " failed: " ++ m,
        by rw [show str "Download failed: " = str "Download" ++ str " failed: " by decide]
           simp [List.append_assoc]⟩
    · exact ⟨str "Download failed: ", [], by simp⟩
  · rintro rfl hid hexec hempty
    refine ⟨?_, str "No files found for \"", str "\". The item may not exist.",
      by simp [noFilesMsg, List.append_assoc]⟩
    simp [handleList, checkIaAvailable, handleListBody, hid, runIa, hexec,
      hempty, bind, Except.bind, pure, Except.pure]

/-- C2 witness: the Unavailable failure kind produces the error result for
all four handlers. -/
theorem handlers_return_error_results_witness :
    probeFailW = Except.error execErrW
  ∧ handleSearch jsonParse probeFailW execFailW ⟨str "dogs", none, none, none⟩ =
      ⟨installMsg, true⟩
  ∧ handleMetadata jsonParse probeFailW execFailW (str "item1") = ⟨installMsg, true⟩
  ∧ handleList probeFailW execFailW (str "item1") = ⟨installMsg, true⟩
  ∧ handleDownload probeFailW execFailW ⟨str "item1", none, none, none, false⟩ =
      ⟨installMsg, true⟩ := by
  have h := (handlers_return_error_results jsonParse probeFailW execFailW
    ⟨str "dogs", none, none, none⟩ (str "item1") (str "item1")
    ⟨str "item1", none, none, none, false⟩ execErrW ⟨[], []⟩ [] [] [] []).1 rfl
  exact ⟨rfl, h.1, h.2.1, h.2.2.1, h.2.2.2⟩

end IaMcp
